import Mathlib

/-!
# Verification of the rustscript compiler and VM core

A shallow embedding, in Lean 4, of the parts of the rustscript repository
that the specification's claims are about:

* `src/bytecode/src/environment.rs` — environment frames with parent chains
  (`Environment::get`, `Environment::set`);
* `src/bytecode/src/semaphore.rs` — semaphores as shared counters with
  reference identity (`PartialEq` via `Arc::ptr_eq`, `Clone` via `Arc::clone`);
* `vm/ignite/src/runtime.rs` — the `Runtime` record, `yield_current_thread`,
  `block_current_thread`, `join_current_thread`, `signal_post`;
* `vm/ignite/src/micro_code/spawn.rs` — the SPAWN micro-operation;
* `vm/ignite/src/runtime/gc.rs` — the mark-and-sweep collector over the
  environment registry;
* `compiler/oxidate/src/compiler.rs` — the bytecode compiler (the minimal
  AST version present in the sources: expressions, blocks, let/assign and
  if/else with back-patched jumps).

Rust's `HashMap` is modelled as an association list with insert-replace
semantics, `Rc`/`Arc` identity as allocation indices (`Nat`), machine
integers (`i64`) as `Int`, and `usize` program counters as `Nat`.  Panics
(`expect`, `panic!`) are modelled by `Option`, recoverable `VmError`s by
`Except`.  Float values are outside every claim and are not modelled.
-/

namespace RustScript

/-- Symbols are interned strings in the source. -/
abbrev Symbol := String

/-- Thread identifiers (`pub type ThreadID = i64`). -/
abbrev ThreadID := Int

/-- A semaphore handle (`W<Arc<Mutex<u64>>>`): identity of a handle is
the identity of its `Arc` allocation, modelled as the allocation index
into a store of counters. -/
structure Semaphore where
  id : Nat
  deriving DecidableEq, Repr

/-- `impl PartialEq for Semaphore { Arc::ptr_eq(&self.0, &other.0) }`:
two handles compare equal exactly when they share the same allocation. -/
def semEq (a b : Semaphore) : Bool := a.id == b.id

/-- `impl Clone for Semaphore { Self(Arc::clone(&self.0)) }`: cloning
returns a handle to the same allocation. -/
def semClone (a : Semaphore) : Semaphore := ⟨a.id⟩

/-- A store of semaphore allocations: position `i` holds the counter of
the semaphore whose handle id is `i` (the `u64` behind each `Arc<Mutex<u64>>`). -/
abbrev SemStore := List Nat

/-- `Arc::new(Mutex::new(init))`: a fresh allocation, appended to the store;
the returned handle points at the new cell and at no existing one. -/
def semNew (store : SemStore) (init : Nat) : SemStore × Semaphore :=
  (store ++ [init], ⟨store.length⟩)

/-- The function kind of a closure (`FnType::User | FnType::Builtin`). -/
inductive FnType where
  | user
  | builtin
  deriving DecidableEq, Repr

/-- Runtime values (`bytecode::Value`).  Environments are shared through
`Rc<RefCell<_>>`; a closure's captured environment is identified by the
allocation index of that `Rc` (`env : Nat`).  The `Float` variant is not
modelled (no claim mentions floats). -/
inductive Value where
  | unit
  | boolV (b : Bool)
  | intV (n : Int)
  | stringV (s : String)
  | threadIdV (t : ThreadID)
  | semV (s : Semaphore)
  | unitialized
  | closureV (fnType : FnType) (sym : Symbol) (prms : List Symbol)
      (addr : Nat) (env : Nat)
  deriving DecidableEq, Repr

/-- `FrameType` of a runtime-stack frame. -/
inductive FrameType where
  | blockFrame
  | callFrame
  deriving DecidableEq, Repr

/-- A runtime-stack frame (`StackFrame`): its type, the saved environment
(allocation index), and the saved return address for call frames. -/
structure StackFrame where
  frame_type : FrameType
  env : Nat
  address : Option Nat
  deriving DecidableEq, Repr

/-- A thread record (`ignite::Thread`): identifier, environment reference
(allocation index), operand stack (head = top), runtime stack and program
counter. -/
structure Thread where
  thread_id : ThreadID
  env : Nat
  operand_stack : List Value
  runtime_stack : List StackFrame
  pc : Nat
  deriving DecidableEq, Repr

/-- `ThreadState` from `ignite`: the scheduler's per-thread state. -/
inductive ThreadState where
  | ready
  | yielded
  | blocked (sem : Semaphore)
  | joining (tid : ThreadID)
  | done
  | zombie
  deriving DecidableEq, Repr

/-! ## Association-list model of `HashMap` -/

/-- Lookup in an association list (first match), modelling `HashMap::get`. -/
def tblLookup {α β : Type} [DecidableEq α] : List (α × β) → α → Option β
  | [], _ => none
  | (k, v) :: rest, key => if k = key then some v else tblLookup rest key

/-- Insert-or-replace in an association list, modelling `HashMap::insert`. -/
def tblInsert {α β : Type} [DecidableEq α] : List (α × β) → α → β → List (α × β)
  | [], key, val => [(key, val)]
  | (k, v) :: rest, key, val =>
    if k = key then (key, val) :: rest else (k, v) :: tblInsert rest key val

/-- Remove a key from an association list, modelling `HashMap::remove`
(the removed value is not returned here; callers look it up first). -/
def tblRemove {α β : Type} [DecidableEq α] : List (α × β) → α → List (α × β)
  | [], _ => []
  | (k, v) :: rest, key =>
    if k = key then tblRemove rest key else (k, v) :: tblRemove rest key

theorem tblLookup_insert_self {α β : Type} [DecidableEq α]
    (t : List (α × β)) (k : α) (v : β) : tblLookup (tblInsert t k v) k = some v := by
  induction t with
  | nil => simp [tblInsert, tblLookup]
  | cons hd tl ih =>
    obtain ⟨k', v'⟩ := hd
    by_cases h : k' = k
    · simp [tblInsert, tblLookup, h]
    · simp [tblInsert, tblLookup, h, ih]

theorem tblLookup_insert_ne {α β : Type} [DecidableEq α]
    (t : List (α × β)) (k k' : α) (v : β) (h : k ≠ k') :
    tblLookup (tblInsert t k v) k' = tblLookup t k' := by
  induction t with
  | nil => simp [tblInsert, tblLookup, h]
  | cons hd tl ih =>
    obtain ⟨k0, v0⟩ := hd
    by_cases h0 : k0 = k
    · subst h0
      simp [tblInsert, tblLookup, h]
    · simp only [tblInsert, if_neg h0]
      by_cases h1 : k0 = k'
      · simp [tblLookup, h1]
      · simp [tblLookup, h1, ih]

/-! ## Environments (`src/bytecode/src/environment.rs`)

An `Environment` is a frame (`env : HashMap<Symbol, Value>`) with an
optional parent (`parent : Option<Rc<RefCell<Environment>>>`).  For the
purposes of lookup and assignment along one chain, the chain is modelled
as a list of frames, innermost first; each frame is an association list. -/

/-- One environment frame's symbol table (`Environment.env`). -/
abbrev Frame := List (Symbol × Value)

/-- An environment chain, innermost frame first (the current frame, then
its parent, then the grandparent, …). -/
abbrev EnvChain := List Frame

/-- Lookup in a single frame's map (`self.env.get(sym)`). -/
def frameLookup (f : Frame) (sym : Symbol) : Option Value := tblLookup f sym

/-- `Environment::set`: `self.env.insert(sym.into(), val.into())` — writes
the binding into THIS frame's map, never into a parent. -/
def frameSet (f : Frame) (sym : Symbol) (val : Value) : Frame := tblInsert f sym val

/-- `Environment::get`: look in this frame's map; on a miss, recurse into
the parent; `None` when the chain is exhausted. -/
def envGet : EnvChain → Symbol → Option Value
  | [], _ => none
  | f :: parents, sym =>
    match frameLookup f sym with
    | some v => some v
    | none => envGet parents sym

/-- Modelled from the spec: the `ASSIGN(sym)` micro-operation (its
`assign.rs` is not among the given sources; only `Environment::get`/`set`
and the dispatch in `runtime.rs` are).  Per the spec, the popped value is
written "to innermost frame that already binds `sym`": the chain is walked
parent-wards to the first frame whose map binds `sym`, and
`Environment::set` is invoked on that frame.  `none` when no frame binds
the symbol (`UnboundSymbol`). -/
def assignChain : EnvChain → Symbol → Value → Option EnvChain
  | [], _, _ => none
  | f :: parents, sym, val =>
    if (frameLookup f sym).isSome then some (frameSet f sym val :: parents)
    else (assignChain parents sym val).map (f :: ·)

/-! ## Bytecode instructions (`bytecode::ByteCode`) -/

/-- The instruction set dispatched by `execute` in `vm/ignite/src/runtime.rs`. -/
inductive ByteCode where
  | DONE
  | ASSIGN (sym : Symbol)
  | LD (sym : Symbol)
  | LDC (val : Value)
  | LDF (addr : Nat) (prms : List Symbol)
  | POP
  | UNOP_NEG
  | UNOP_NOT
  | BINOP_ADD
  | BINOP_SUB
  | BINOP_MUL
  | BINOP_DIV
  | JOF (pc : Nat)
  | GOTO (pc : Nat)
  | RESET (ft : FrameType)
  | ENTERSCOPE (syms : List Symbol)
  | EXITSCOPE
  | CALL (arity : Nat)
  | SPAWN (addr : Nat)
  | JOIN (tid : ThreadID)
  | YIELD
  | WAIT
  | POST
  deriving DecidableEq, Repr

/-! ## The runtime (`vm/ignite/src/runtime.rs`)

`time : Instant` is modelled by a `Nat` timestamp together with an ambient
clock `now`; "reset the timer" (`self.time = Instant::now()`) sets the
stored timestamp to `now`.  Semaphore counters live in a `SemStore`
(position `i` = the `u64` behind allocation `i`), mirroring the shared
`Arc<Mutex<u64>>` cells. -/

/-- The `Runtime` record. -/
structure Runtime where
  time : Nat
  time_quantum : Nat
  now : Nat
  instrs : List ByteCode
  sems : SemStore
  signal : Option Semaphore
  thread_count : Int
  thread_states : List (ThreadID × ThreadState)
  current_thread : Thread
  ready_queue : List Thread
  blocked_queue : List Thread
  zombie_threads : List (ThreadID × Thread)
  deriving DecidableEq, Repr

/-- `get_current_thread_state`: `none` models the
`expect("Current thread not found")` panic. -/
def getCurrentThreadState (rt : Runtime) : Option ThreadState :=
  tblLookup rt.thread_states rt.current_thread.thread_id

/-- `yield_current_thread`: set the current thread's state to `Ready`,
push it to the BACK of the ready queue, then pop the FRONT of the ready
queue as the new current thread and reset the timer.  `none` models the
`expect("No threads in ready queue")` panic branch of the pop. -/
def yieldCurrentThread (rt : Runtime) : Option Runtime :=
  let states := tblInsert rt.thread_states rt.current_thread.thread_id ThreadState.ready
  match rt.ready_queue ++ [rt.current_thread] with
  | [] => none
  | next :: rest =>
    some { rt with
            thread_states := states
            current_thread := next
            ready_queue := rest
            time := rt.now }

/-- `block_current_thread`: push the current thread to the back of the
blocked queue; pop the front of the ready queue as the new current thread
(the timer is NOT reset).  `none` models the empty-ready-queue panic. -/
def blockCurrentThread (rt : Runtime) : Option Runtime :=
  match rt.ready_queue with
  | [] => none
  | next :: rest =>
    some { rt with
            blocked_queue := rt.blocked_queue ++ [rt.current_thread]
            current_thread := next
            ready_queue := rest }

/-- The recoverable error kinds of `VmError` that the modelled operations
can surface. -/
inductive VmError where
  | pcOutOfBounds (pc : Nat)
  | operandStackUnderflow
  | threadNotFound (tid : ThreadID)
  deriving DecidableEq, Repr

/-- `join_current_thread`.  The outer `Option` models the panics
(`"Current thread is not joining"`, `"Thread to join not found"`, and
`usize` underflow of `pc -= 1`); the inner `Except` models the `Result`.
With `Joining(tid)`:
* no state-table entry for `tid` → panic;
* `Zombie` → set the current thread `Ready`, remove the zombie's thread
  record, pop its operand-stack top and push it onto the current thread's
  operand stack, remove `tid` from the state table;
* anything else → decrement the current thread's PC and yield. -/
def joinCurrentThread (rt : Runtime) : Option (Except VmError Runtime) :=
  match getCurrentThreadState rt with
  | some (ThreadState.joining tid) =>
    match tblLookup rt.thread_states tid with
    | none => none
    | some ThreadState.zombie =>
      let states := tblInsert rt.thread_states rt.current_thread.thread_id ThreadState.ready
      match tblLookup rt.zombie_threads tid with
      | none => some (Except.error (VmError.threadNotFound tid))
      | some zombie =>
        match zombie.operand_stack with
        | [] => some (Except.error VmError.operandStackUnderflow)
        | result :: _ =>
          some (Except.ok { rt with
            thread_states := tblRemove states tid
            zombie_threads := tblRemove rt.zombie_threads tid
            current_thread := { rt.current_thread with
              operand_stack := result :: rt.current_thread.operand_stack } })
    | some _ =>
      if rt.current_thread.pc = 0 then none
      else
        (yieldCurrentThread
          { rt with current_thread :=
              { rt.current_thread with pc := rt.current_thread.pc - 1 } }).map Except.ok
  | _ => none

/-- Increment the `u64` behind a semaphore handle (`*sem_guard += 1`). -/
def semIncr (store : SemStore) (s : Semaphore) : SemStore :=
  store.set s.id (store.getD s.id 0 + 1)

/-- The `for thread in self.blocked_queue.drain(..)` loop of `signal_post`,
threading the mutated state table and ready queue through the iteration:
* a thread with no state-table entry panics (`expect("Thread not found")`,
  modelled by `none`);
* a thread whose state is `Blocked(s')` with `s' ≡ s` (handle identity,
  `Arc::ptr_eq`) is set `Ready` and pushed to the back of the ready queue;
* a thread whose state is `Blocked` on another semaphore is kept (in
  order) for the rebuilt blocked queue;
* a thread in any other state falls through the `let … else continue` and
  is silently dropped from the blocked queue.
Returns (state table, ready queue, rebuilt blocked queue). -/
def drainBlocked (s : Semaphore) :
    List (ThreadID × ThreadState) → List Thread → List Thread →
    Option (List (ThreadID × ThreadState) × List Thread × List Thread)
  | states, ready, [] => some (states, ready, [])
  | states, ready, t :: ts =>
    match tblLookup states t.thread_id with
    | none => none
    | some (ThreadState.blocked s') =>
      if semEq s s' then
        drainBlocked s (tblInsert states t.thread_id ThreadState.ready) (ready ++ [t]) ts
      else
        (drainBlocked s states ready ts).map (fun r => (r.1, r.2.1, t :: r.2.2))
    | some _ => drainBlocked s states ready ts

/-- `signal_post`: take the semaphore out of the pending-post slot
(panic when the slot is empty), increment its counter, then walk the
blocked queue as in `drainBlocked`. -/
def signalPost (rt : Runtime) : Option Runtime :=
  match rt.signal with
  | none => none
  | some s =>
    (drainBlocked s rt.thread_states rt.ready_queue rt.blocked_queue).map fun r =>
      { rt with
          signal := none
          sems := semIncr rt.sems s
          thread_states := r.1
          ready_queue := r.2.1
          blocked_queue := r.2.2 }

/-- Modelled from the spec: `Thread::spawn_child` is not among the given
sources (only its caller `micro_code::spawn` is); per the spec the child is
"a starting image" that duplicates the parent's env reference and
operand/runtime stacks, with the fresh `ThreadID` and `PC = child_addr`. -/
def spawnChild (t : Thread) (id : ThreadID) (addr : Nat) : Thread :=
  { t with thread_id := id, pc := addr }

/-- `micro_code::spawn`: increment the thread counter, build the child via
`spawn_child`, push `Int(0)` onto the child's operand stack, push the
child's `ThreadID` onto the parent's operand stack, enqueue the child at
the back of the ready queue.  (Note: the function touches no other field
of the runtime.) -/
def spawn (rt : Runtime) (addr : Nat) : Runtime :=
  let childThreadId := rt.thread_count + 1
  let child0 := spawnChild rt.current_thread childThreadId addr
  let child := { child0 with operand_stack := Value.intV 0 :: child0.operand_stack }
  { rt with
      thread_count := childThreadId
      current_thread := { rt.current_thread with
        operand_stack := Value.intV childThreadId :: rt.current_thread.operand_stack }
      ready_queue := rt.ready_queue ++ [child] }

/-! ## The garbage collector (`vm/ignite/src/runtime/gc.rs`)

`gc.rs` runs against the registry-carrying runtime: `env_registry` holds
the only strong references to environments (keyed here by allocation
index), threads hold weak references, and the blocked queue pairs each
thread with the semaphore it blocks on.  The marked map
(`HashMap<EnvWeak, bool>`) is modelled as the list of ids whose bit is
`true`; `env_hashmap` initialises every bit to `false` (the empty list).
`mark_env` recurses along parent links, stopping at an already-marked
environment; the recursion depth is bounded by the registry size, made
explicit here with a fuel argument. -/

/-- An environment as the registry sees it: parent link and bindings
(`Environment { parent, env }`, with shared references as allocation ids). -/
structure GCEnv where
  parent : Option Nat
  bindings : List (Symbol × Value)
  deriving DecidableEq, Repr

/-- The environment registry: allocation id ↦ environment. -/
abbrev Registry := List (Nat × GCEnv)

/-- The fields of the registry-carrying runtime that the collector reads. -/
structure GCRuntime where
  env_registry : Registry
  current_thread : Thread
  ready_queue : List Thread
  blocked_queue : List (Thread × Semaphore)
  deriving DecidableEq, Repr

/-- `mark_env`: panic (`none`) if the environment is not a registry key
(`expect("Environment must be in the registry")`); return unchanged if its
bit is already set; otherwise set the bit and recurse into the parent.
Note that the environment's `bindings` are NOT traversed: closure values
stored inside an environment are never followed. -/
def markEnv : Nat → Registry → List Nat → Nat → Option (List Nat)
  | 0, _, _, _ => none
  | fuel + 1, reg, marked, id =>
    match tblLookup reg id with
    | none => none
    | some e =>
      if id ∈ marked then some marked
      else
        match e.parent with
        | none => some (id :: marked)
        | some p => markEnv fuel reg (id :: marked) p

/-- `mark_operand_stack`: mark the captured environment of every closure
value on the operand stack. -/
def markOperandStack (fuel : Nat) (reg : Registry) :
    List Nat → List Value → Option (List Nat)
  | marked, [] => some marked
  | marked, Value.closureV _ _ _ _ e :: vs =>
    (markEnv fuel reg marked e).bind fun m => markOperandStack fuel reg m vs
  | marked, _ :: vs => markOperandStack fuel reg marked vs

/-- `mark_runtime_stack`: mark the saved environment of every frame. -/
def markRuntimeStack (fuel : Nat) (reg : Registry) :
    List Nat → List StackFrame → Option (List Nat)
  | marked, [] => some marked
  | marked, f :: fs =>
    (markEnv fuel reg marked f.env).bind fun m => markRuntimeStack fuel reg m fs

/-- `mark_thread`: the thread's environment, then its operand stack, then
its runtime stack. -/
def markThread (fuel : Nat) (reg : Registry) (marked : List Nat) (t : Thread) :
    Option (List Nat) :=
  (markEnv fuel reg marked t.env).bind fun m =>
    (markOperandStack fuel reg m t.operand_stack).bind fun m =>
      markRuntimeStack fuel reg m t.runtime_stack

/-- The roots phase of `mark`: the current thread, every ready-queue
thread, every blocked-queue thread.  Zombie threads are ignored. -/
def markThreads (fuel : Nat) (reg : Registry) :
    List Nat → List Thread → Option (List Nat)
  | marked, [] => some marked
  | marked, t :: ts =>
    (markThread fuel reg marked t).bind fun m => markThreads fuel reg m ts

/-- `mark`: start from the all-false map and mark from every live thread
(current, ready, blocked). -/
def gcMark (rt : GCRuntime) : Option (List Nat) :=
  let fuel := rt.env_registry.length + 1
  (markThread fuel rt.env_registry [] rt.current_thread).bind fun m =>
    (markThreads fuel rt.env_registry m rt.ready_queue).bind fun m =>
      markThreads fuel rt.env_registry m (rt.blocked_queue.map Prod.fst)

/-- `sweep`: retain exactly the registry entries whose bit is set
(`unwrap_or(&false)` — a missing bit counts as unmarked). -/
def gcSweep (rt : GCRuntime) (marked : List Nat) : GCRuntime :=
  { rt with env_registry := rt.env_registry.filter fun e => e.1 ∈ marked }

/-- `mark_and_weep` = `mark` then `sweep`. -/
def markAndWeep (rt : GCRuntime) : Option GCRuntime :=
  (gcMark rt).map (gcSweep rt)

/-! ## The bytecode compiler (`compiler/oxidate/src/compiler.rs`)

The compiler present in the sources consumes the minimal AST version
(`Expr`, `Decl::{ExprStmt, LetStmt, Assign}`, `BlockSeq`, `IfElseData`).
Emission appends to a growing instruction array; forward jumps are pushed
with placeholder target `0` and patched in place once the target index is
known (`if let Some(ByteCode::JOF(idx)) = arr.get_mut(jof_idx)`).
Float literals are outside every claim and are not modelled. -/

/-- The minimal `BinOpType` (`Add | Sub | Mul | Div`). -/
inductive CBinOp where
  | add
  | sub
  | mul
  | div
  deriving DecidableEq, Repr

/-- `UnOpType` (`Negate | Not`). -/
inductive CUnOp where
  | negate
  | notOp
  deriving DecidableEq, Repr

mutual
/-- The minimal `parser::structs::Expr` consumed by `compiler.rs`. -/
inductive CExpr where
  | integer (n : Int)
  | boolE (b : Bool)
  | symbolE (s : Symbol)
  | binOpExpr (op : CBinOp) (lhs rhs : CExpr)
  | unOpExpr (op : CUnOp) (e : CExpr)
  | blockExpr (b : CBlockSeq)
  | ifElseExpr (d : CIfElse)

/-- `BlockSeq { decls, last_expr, symbols }`. -/
inductive CBlockSeq where
  | mk (decls : List CDecl) (lastExpr : Option CExpr) (symbols : List Symbol)

/-- The minimal `Decl`: expression statements, `let`, assignment. -/
inductive CDecl where
  | exprStmt (e : CExpr)
  | letStmt (ident : Symbol) (e : CExpr)
  | assignS (ident : Symbol) (e : CExpr)

/-- `IfElseData { cond, if_blk, else_blk }`. -/
inductive CIfElse where
  | mk (cond : CExpr) (ifBlk : CBlockSeq) (elseBlk : Option CBlockSeq)
end

/-- The `BINOP` instruction for a `BinOpType`. -/
def binOpCode : CBinOp → ByteCode
  | .add => .BINOP_ADD
  | .sub => .BINOP_SUB
  | .mul => .BINOP_MUL
  | .div => .BINOP_DIV

/-- The `UNOP` instruction for a `UnOpType`. -/
def unOpCode : CUnOp → ByteCode
  | .negate => .UNOP_NEG
  | .notOp => .UNOP_NOT

/-- `blk_produces_nothing`: no trailing expression, or the trailing
expression is itself a none-like block, recursively. -/
def blkProducesNothing : CBlockSeq → Bool
  | .mk _ lastE _ =>
    match lastE with
    | none => true
    | some (.blockExpr seq) => blkProducesNothing seq
    | some _ => false

/-- Patch `arr[idx]` to `JOF addr` when it currently holds a `JOF`
(`if let Some(ByteCode::JOF(idx)) = arr.get_mut(jof_idx)`). -/
def patchJof (arr : List ByteCode) (idx addr : Nat) : List ByteCode :=
  match arr.get? idx with
  | some (.JOF _) => arr.set idx (.JOF addr)
  | _ => arr

/-- Patch `arr[idx]` to `GOTO addr` when it currently holds a `GOTO`. -/
def patchGoto (arr : List ByteCode) (idx addr : Nat) : List ByteCode :=
  match arr.get? idx with
  | some (.GOTO _) => arr.set idx (.GOTO addr)
  | _ => arr

mutual
/-- `Compiler::compile_expr`.  The `BinOpExpr`/`UnOpExpr` arms inline
`compile_binop`/`compile_unop` (standalone equivalents with the source's
names follow the mutual block).  Note the `IfElseExpr` arm: it invokes
`compile_if_else(if_else, false, arr)` — the incoming `as_stmt` flag is
NOT forwarded. -/
def compileExpr : CExpr → Bool → List ByteCode → List ByteCode
  | .integer n, _, arr => arr ++ [.LDC (.intV n)]
  | .boolE b, _, arr => arr ++ [.LDC (.boolV b)]
  | .symbolE s, _, arr => arr ++ [.LD s]
  | .binOpExpr op lhs rhs, _, arr =>
    compileExpr rhs false (compileExpr lhs false arr) ++ [binOpCode op]
  | .unOpExpr op e, _, arr => compileExpr e false arr ++ [unOpCode op]
  | .blockExpr b, asStmt, arr => compileBlock b asStmt arr
  | .ifElseExpr d, _, arr => compileIfElse d false arr

/-- `Compiler::compile_decl` (the `LetStmt`/`Assign` arms inline
`compile_assign`; a standalone equivalent follows the mutual block). -/
def compileDecl : CDecl → List ByteCode → List ByteCode
  | .exprStmt e, arr => compileExpr e true arr
  | .letStmt ident e, arr => compileExpr e false arr ++ [.ASSIGN ident, .LDC .unit]
  | .assignS ident e, arr => compileExpr e false arr ++ [.ASSIGN ident, .LDC .unit]

/-- The `for decl in decls` loop of `compile_block`: each declaration is
compiled as a statement and followed by a `POP`. -/
def compileDecls : List CDecl → List ByteCode → List ByteCode
  | [], arr => arr
  | d :: ds, arr => compileDecls ds (compileDecl d arr ++ [.POP])

/-- `Compiler::compile_block`: `ENTERSCOPE` when the symbol list is
non-empty, the declarations each followed by `POP`, the optional trailing
expression, `EXITSCOPE`, and a final `LDC(Unit)` when the block is
none-like AND compiled as a statement. -/
def compileBlock : CBlockSeq → Bool → List ByteCode → List ByteCode
  | .mk decls lastE syms, asStmt, arr =>
    let arr := if syms.isEmpty then arr else arr ++ [.ENTERSCOPE syms]
    let arr := compileDecls decls arr
    let arr :=
      match lastE with
      | some e => compileExpr e false arr
      | none => arr
    let arr := if syms.isEmpty then arr else arr ++ [.EXITSCOPE]
    if blkProducesNothing (.mk decls lastE syms) && asStmt then arr ++ [.LDC .unit]
    else arr

/-- `Compiler::compile_if_else`: condition; `JOF 0` (recorded); if-block;
`GOTO 0` (recorded); `jof` patched to the address after the `GOTO`; the
optional else-block; `goto` patched to the address after the else-block.
When `else_blk` is `None`, nothing at all is emitted between the `GOTO`
and its target. -/
def compileIfElse : CIfElse → Bool → List ByteCode → List ByteCode
  | .mk cond ifBlk elseBlk, asStmt, arr =>
    let arr := compileExpr cond false arr
    let jofIdx := arr.length
    let arr := arr ++ [.JOF 0]
    let arr := compileBlock ifBlk asStmt arr
    let gotoIdx := arr.length
    let arr := arr ++ [.GOTO 0]
    let jofAddr := arr.length
    let arr :=
      match elseBlk with
      | some b => compileBlock b asStmt arr
      | none => arr
    let gotoAddr := arr.length
    let arr := patchJof arr jofIdx jofAddr
    patchGoto arr gotoIdx gotoAddr
end

/-- `Compiler::compile_binop`: compile the lhs, then the rhs, then push
the operator instruction. -/
def compileBinop (op : CBinOp) (lhs rhs : CExpr) (arr : List ByteCode) :
    List ByteCode :=
  compileExpr rhs false (compileExpr lhs false arr) ++ [binOpCode op]

/-- `Compiler::compile_unop`: compile the operand, then push the operator. -/
def compileUnop (op : CUnOp) (e : CExpr) (arr : List ByteCode) : List ByteCode :=
  compileExpr e false arr ++ [unOpCode op]

/-- `Compiler::compile_assign`: compile the expression, `ASSIGN`, then
`LDC(Unit)` so the statement's trailing `POP` has a value. -/
def compileAssign (ident : Symbol) (e : CExpr) (arr : List ByteCode) :
    List ByteCode :=
  compileExpr e false arr ++ [.ASSIGN ident, .LDC .unit]

theorem compileExpr_binop (op : CBinOp) (lhs rhs : CExpr) (asStmt : Bool)
    (arr : List ByteCode) :
    compileExpr (.binOpExpr op lhs rhs) asStmt arr = compileBinop op lhs rhs arr := rfl

theorem compileExpr_unop (op : CUnOp) (e : CExpr) (asStmt : Bool)
    (arr : List ByteCode) :
    compileExpr (.unOpExpr op e) asStmt arr = compileUnop op e arr := rfl

theorem compileDecl_letStmt (ident : Symbol) (e : CExpr) (arr : List ByteCode) :
    compileDecl (.letStmt ident e) arr = compileAssign ident e arr := rfl

theorem compileDecl_assignS (ident : Symbol) (e : CExpr) (arr : List ByteCode) :
    compileDecl (.assignS ident e) arr = compileAssign ident e arr := rfl

/-- `Compiler::compile`: the program block compiled with `as_stmt = false`,
terminated by `DONE`. -/
def compileProgram (program : CBlockSeq) : List ByteCode :=
  compileBlock program false [] ++ [.DONE]

/-! ## A single-thread executor for the compiled subset

Modelled from the spec: the micro-operations `ldc`, `pop`, `jof`, `goto`
and `done` are not among the given sources (only their dispatch in
`runtime.rs` is).  Per the spec's instruction table: `LDC(v)` pushes `v`;
`POP` pops one value and errors (`OperandStackUnderflow`) on an empty
stack; `JOF(addr)` pops a bool and sets `PC = addr` when it is false;
`GOTO(addr)` sets `PC = addr`; `DONE` ends the thread. -/

/-- Outcome of running a straight-line compiled fragment. -/
inductive ExecResult where
  | ok (stack : List Value)
  | underflow
  | pcOutOfBounds (pc : Nat)
  | unsupported
  | outOfFuel
  deriving DecidableEq, Repr

/-- Fetch–execute over the subset, with fuel. -/
def runBC : Nat → List ByteCode → Nat → List Value → ExecResult
  | 0, _, _, _ => .outOfFuel
  | fuel + 1, code, pc, stack =>
    match code.get? pc with
    | none => .pcOutOfBounds pc
    | some .DONE => .ok stack
    | some (.LDC v) => runBC fuel code (pc + 1) (v :: stack)
    | some .POP =>
      match stack with
      | [] => .underflow
      | _ :: rest => runBC fuel code (pc + 1) rest
    | some (.GOTO a) => runBC fuel code a stack
    | some (.JOF a) =>
      match stack with
      | .boolV true :: rest => runBC fuel code (pc + 1) rest
      | .boolV false :: rest => runBC fuel code a rest
      | _ => .unsupported
    | some _ => .unsupported

/-! ## Concrete runtimes used by witnesses and counterexamples -/

/-- `Runtime::new(instrs)`: main thread id 1 in state `Ready`, thread
counter 1, empty queues, empty signal slot (`env = 0` stands for the
global environment allocation). -/
def rtNew (instrs : List ByteCode) : Runtime :=
  { time := 0
    time_quantum := 100
    now := 0
    instrs := instrs
    sems := []
    signal := none
    thread_count := 1
    thread_states := [(1, ThreadState.ready)]
    current_thread := ⟨1, 0, [], [], 0⟩
    ready_queue := []
    blocked_queue := []
    zombie_threads := [] }

/-! ## Claim theorems -/

theorem assignChain_spec (sym : Symbol) (v : Value) :
    ∀ chain : EnvChain, (envGet chain sym).isSome →
    ∃ pre f post, chain = pre ++ f :: post ∧
      (∀ g ∈ pre, frameLookup g sym = none) ∧
      (frameLookup f sym).isSome ∧
      assignChain chain sym v = some (pre ++ frameSet f sym v :: post)
  | [], h => by simp [envGet] at h
  | f :: parents, h => by
    by_cases hf : (frameLookup f sym).isSome
    · exact ⟨[], f, parents, rfl, by simp, hf, by simp [assignChain, hf]⟩
    · have hf' : frameLookup f sym = none := by
        cases hlk : frameLookup f sym with
        | none => rfl
        | some w => rw [hlk] at hf; simp at hf
      have hpar : (envGet parents sym).isSome := by
        simpa [envGet, hf'] using h
      obtain ⟨pre, g, post, heq, hpre, hg, hassign⟩ := assignChain_spec sym v parents hpar
      exact ⟨f :: pre, g, post, by simp [heq],
        fun x hx => by
          rcases List.mem_cons.mp hx with hx | hx
          · exact hx ▸ hf'
          · exact hpre x hx,
        hg, by simp [assignChain, hf', hassign]⟩

/-- C1.  For every environment chain and every symbol `sym` bound in some
ancestor frame but not in the current frame, `ASSIGN(sym)` (the walk
modelled from the spec, writing via `Environment::set` = `frameSet` into
the found frame) writes the popped value into the nearest frame that
already binds `sym`, and leaves the current frame — and every frame above
the binding one — unchanged, so no new binding for `sym` is created in the
current frame. -/
theorem c1_assign_writes_nearest_binding_frame
    (cur : Frame) (rest : EnvChain) (sym : Symbol) (v : Value)
    (hcur : frameLookup cur sym = none)
    (hbound : (envGet rest sym).isSome) :
    ∃ pre f post, rest = pre ++ f :: post ∧
      (∀ g ∈ pre, frameLookup g sym = none) ∧
      (frameLookup f sym).isSome ∧
      assignChain (cur :: rest) sym v =
        some (cur :: pre ++ frameSet f sym v :: post) := by
  obtain ⟨pre, f, post, heq, hpre, hf, hassign⟩ := assignChain_spec sym v rest hbound
  exact ⟨pre, f, post, heq, hpre, hf, by simp [assignChain, hcur, hassign]⟩

/-- Witness for C1: chain `[{y ↦ 1}, {x ↦ 7}, {x ↦ 9}]`, assigning
`x := 2`: the current frame `{y ↦ 1}` does not bind `x`, an ancestor does,
and the write lands in the nearest binding frame with the current frame
kept unchanged at the head. -/
theorem c1_witness :
    ∃ pre f post,
      [[("x", Value.intV 7)], [("x", Value.intV 9)]] = pre ++ f :: post ∧
      (∀ g ∈ pre, frameLookup g "x" = none) ∧
      (frameLookup f "x").isSome ∧
      assignChain [[("y", Value.intV 1)], [("x", Value.intV 7)], [("x", Value.intV 9)]]
          "x" (Value.intV 2) =
        some ([("y", Value.intV 1)] :: pre ++ frameSet f "x" (Value.intV 2) :: post) :=
  c1_assign_writes_nearest_binding_frame [("y", Value.intV 1)]
    [[("x", Value.intV 7)], [("x", Value.intV 9)]] "x" (Value.intV 2)
    (by decide) (by decide)

/-- C9.  Semaphore handles compare equal iff they share the same
underlying allocation (`Arc::ptr_eq`); cloning yields a handle equal to
the original; a freshly created semaphore is unequal to every existing
handle, so two independently created semaphores compare unequal even with
equal counter values. -/
theorem c9_semaphore_identity :
    (∀ a b : Semaphore, semEq a b = true ↔ a.id = b.id) ∧
    (∀ a : Semaphore, semEq (semClone a) a = true) ∧
    (∀ (store : SemStore) (init : Nat) (h : Semaphore),
        h.id < store.length → semEq (semNew store init).2 h = false) := by
  refine ⟨fun a b => by simp [semEq], fun a => by simp [semClone, semEq], ?_⟩
  intro store init h hlt
  simp only [semNew, semEq, beq_eq_false_iff_ne, ne_eq]
  omega

/-- Witness for C9: `sem(5)` allocated twice — equal counters (both 5),
unequal handles; and a clone of the first handle equals the first. -/
theorem c9_witness :
    (semNew [] 5).2.id < (semNew [] 5).1.length ∧
    semEq (semNew (semNew [] 5).1 5).2 (semNew [] 5).2 = false ∧
    (semNew (semNew [] 5).1 5).1.getD (semNew (semNew [] 5).1 5).2.id 0 =
      (semNew (semNew [] 5).1 5).1.getD (semNew [] 5).2.id 0 ∧
    semEq (semClone (semNew [] 5).2) (semNew [] 5).2 = true := by
  refine ⟨by decide, ?_, by decide, c9_semaphore_identity.2.1 _⟩
  exact c9_semaphore_identity.2.2 (semNew [] 5).1 5 (semNew [] 5).2 (by decide)

/-- A runtime whose ready queue is empty while the current (single) thread
has just executed `YIELD`. -/
def rtEmptyReady : Runtime :=
  { rtNew [ByteCode.YIELD, ByteCode.DONE] with
      thread_states := [(1, ThreadState.yielded)]
      current_thread := ⟨1, 0, [], [], 1⟩ }

/-- Counterexample to C5: with the ready queue empty at the point of
yielding, `yield_current_thread` does NOT hit a fatal runtime error — it
returns normally (the current thread is pushed before the pop, so the pop
finds it), re-installing the same thread as current. -/
theorem c5_counterexample :
    rtEmptyReady.ready_queue = [] ∧
    yieldCurrentThread rtEmptyReady =
      some { rtEmptyReady with thread_states := [(1, ThreadState.ready)] } := by
  decide

/-- C5 (amended).  When the scheduler yields the current thread it marks
it `Ready`, pushes it to the back of the ready queue, pops the front of
the ready queue as the new current thread, and resets the quantum-start
timestamp; because the push precedes the pop, the pop always succeeds —
an empty ready queue at the point of yielding is not an error (the same
thread is re-installed). -/
theorem c5_yield_spec (rt : Runtime) :
    ∃ next rest, rt.ready_queue ++ [rt.current_thread] = next :: rest ∧
      yieldCurrentThread rt = some { rt with
        thread_states :=
          tblInsert rt.thread_states rt.current_thread.thread_id ThreadState.ready
        current_thread := next
        ready_queue := rest
        time := rt.now } := by
  cases hq : rt.ready_queue with
  | nil => exact ⟨rt.current_thread, [], by simp [hq], by simp [yieldCurrentThread, hq]⟩
  | cons a l =>
    exact ⟨a, l ++ [rt.current_thread], by simp [hq],
      by simp [yieldCurrentThread, hq]⟩

/-- C10.  `yield_current_thread` never reaches its empty-queue panic
branch: the pop always succeeds, and when the ready queue was empty
beforehand the very same thread is re-installed as current with state
`Ready` and the quantum timer reset, so a single-threaded program
continues across quantum expiry. -/
theorem c10_yield_never_panics (rt : Runtime) :
    (yieldCurrentThread rt).isSome ∧
    (rt.ready_queue = [] →
      yieldCurrentThread rt = some { rt with
        thread_states :=
          tblInsert rt.thread_states rt.current_thread.thread_id ThreadState.ready
        current_thread := rt.current_thread
        ready_queue := []
        time := rt.now }) := by
  constructor
  · cases hq : rt.ready_queue with
    | nil => simp [yieldCurrentThread, hq]
    | cons a l => simp [yieldCurrentThread, hq]
  · intro hq
    simp [yieldCurrentThread, hq]

/-- Witness for C10 at a concrete runtime with an empty ready queue. -/
theorem c10_witness :
    yieldCurrentThread rtEmptyReady = some { rtEmptyReady with
      thread_states :=
        tblInsert rtEmptyReady.thread_states
          rtEmptyReady.current_thread.thread_id ThreadState.ready
      current_thread := rtEmptyReady.current_thread
      ready_queue := []
      time := rtEmptyReady.now } :=
  (c10_yield_never_panics rtEmptyReady).2 rfl

/-- Whether, in a given state table, a thread's recorded state is
`Blocked` on (a handle identical to) `s`. -/
def blockedOn (states : List (ThreadID × ThreadState)) (s : Semaphore)
    (t : Thread) : Bool :=
  match tblLookup states t.thread_id with
  | some (ThreadState.blocked s') => semEq s s'
  | _ => false

theorem blockedOn_congr {states states' : List (ThreadID × ThreadState)}
    (s : Semaphore) (u : Thread)
    (h : tblLookup states' u.thread_id = tblLookup states u.thread_id) :
    blockedOn states' s u = blockedOn states s u := by
  simp [blockedOn, h]

/-- Full characterization of the `signal_post` drain loop on a queue of
threads that all have `Blocked` entries with pairwise-distinct ids: the
loop succeeds; the ready queue is extended, in blocked-queue order, by
exactly the threads blocked on `s`; the rebuilt blocked queue keeps
exactly the others, in order; the woken threads' states become `Ready`
and every other id's state is untouched. -/
theorem drainBlocked_spec (s : Semaphore) :
    ∀ (queue : List Thread) (states : List (ThreadID × ThreadState))
      (ready : List Thread),
    (∀ t ∈ queue, ∃ s', tblLookup states t.thread_id = some (ThreadState.blocked s')) →
    (queue.map Thread.thread_id).Nodup →
    ∃ st, drainBlocked s states ready queue =
        some (st, ready ++ queue.filter (blockedOn states s),
          queue.filter (fun t => !blockedOn states s t)) ∧
      (∀ t ∈ queue, blockedOn states s t = true →
        tblLookup st t.thread_id = some ThreadState.ready) ∧
      (∀ id, id ∉ queue.map Thread.thread_id →
        tblLookup st id = tblLookup states id) := by
  intro queue
  induction queue with
  | nil =>
    intro states ready _ _
    exact ⟨states, by simp [drainBlocked], by simp, fun _ _ => rfl⟩
  | cons t ts ih =>
    intro states ready hstates hnodup
    obtain ⟨s', hs'⟩ := hstates t (by simp)
    have hnotin : t.thread_id ∉ ts.map Thread.thread_id :=
      (List.nodup_cons.mp hnodup).1
    have hnodup' : (ts.map Thread.thread_id).Nodup := (List.nodup_cons.mp hnodup).2
    by_cases hmatch : semEq s s' = true
    · have hb : blockedOn states s t = true := by simp [blockedOn, hs', hmatch]
      have hlk : ∀ u ∈ ts,
          tblLookup (tblInsert states t.thread_id ThreadState.ready) u.thread_id =
            tblLookup states u.thread_id := by
        intro u hu
        refine tblLookup_insert_ne states t.thread_id u.thread_id ThreadState.ready ?_
        intro hcontra
        exact hnotin (hcontra ▸ List.mem_map_of_mem Thread.thread_id hu)
      have hstates' : ∀ u ∈ ts, ∃ s'',
          tblLookup (tblInsert states t.thread_id ThreadState.ready) u.thread_id =
            some (ThreadState.blocked s'') := by
        intro u hu
        obtain ⟨s'', hu'⟩ := hstates u (List.mem_cons_of_mem t hu)
        exact ⟨s'', (hlk u hu).trans hu'⟩
      obtain ⟨st, hdrain, hready, hrest⟩ :=
        ih (tblInsert states t.thread_id ThreadState.ready) (ready ++ [t])
          hstates' hnodup'
      have hfilter1 : ts.filter (blockedOn (tblInsert states t.thread_id ThreadState.ready) s) =
          ts.filter (blockedOn states s) :=
        List.filter_congr fun u hu => by rw [blockedOn_congr s u (hlk u hu)]
      have hfilter2 :
          ts.filter (fun u => !blockedOn (tblInsert states t.thread_id ThreadState.ready) s u) =
            ts.filter (fun u => !blockedOn states s u) :=
        List.filter_congr fun u hu => by rw [blockedOn_congr s u (hlk u hu)]
      refine ⟨st, ?_, ?_, ?_⟩
      · simp only [drainBlocked, hs', hmatch, if_pos]
        rw [hdrain, hfilter1, hfilter2]
        simp [hb, List.filter_cons]
      · intro u hu hbu
        rcases List.mem_cons.mp hu with rfl | hu'
        · by_cases hmem : u.thread_id ∈ ts.map Thread.thread_id
          · exact absurd hmem hnotin
          · rw [hrest u.thread_id hmem]
            exact tblLookup_insert_self states u.thread_id ThreadState.ready
        · refine hready u hu' ?_
          rw [blockedOn_congr s u (hlk u hu')]
          exact hbu
      · intro id hid
        have hid_ts : id ∉ ts.map Thread.thread_id := by
          intro hcontra
          exact hid (List.mem_cons_of_mem _ hcontra)
        have hid_t : id ≠ t.thread_id := by
          intro hcontra
          exact hid (by simp [hcontra])
        rw [hrest id hid_ts]
        exact tblLookup_insert_ne states t.thread_id id ThreadState.ready
          fun h => hid_t h.symm
    · have hmatch' : semEq s s' = false := by
        cases h : semEq s s' with
        | true => exact absurd h hmatch
        | false => rfl
      have hb : blockedOn states s t = false := by simp [blockedOn, hs', hmatch']
      obtain ⟨st, hdrain, hready, hrest⟩ :=
        ih states ready (fun u hu => hstates u (List.mem_cons_of_mem t hu)) hnodup'
      refine ⟨st, ?_, ?_, ?_⟩
      · simp only [drainBlocked, hs', hmatch', if_neg, Bool.false_eq_true,
          not_false_eq_true]
        rw [hdrain]
        simp [hb, List.filter_cons]
      · intro u hu hbu
        rcases List.mem_cons.mp hu with rfl | hu'
        · rw [hb] at hbu; exact absurd hbu (by simp)
        · exact hready u hu' hbu
      · intro id hid
        exact hrest id fun hcontra => hid (List.mem_cons_of_mem _ hcontra)

/-- Read a semaphore's counter out of the store. -/
def semRead (store : SemStore) (s : Semaphore) : Nat := store.getD s.id 0

theorem semRead_semIncr (store : SemStore) (s : Semaphore)
    (h : s.id < store.length) :
    semRead (semIncr store s) s = semRead store s + 1 := by
  simp [semRead, semIncr, List.getD, List.getElem?_set_self h]

/-- Characterization of `signal_post` when the pending-post slot holds `s`
and the blocked queue is well-formed (every thread has a `Blocked` entry,
ids pairwise distinct — both are invariants of the scheduler, which moves
a thread into the blocked queue exactly when its recorded state is
`Blocked`). -/
theorem signalPost_spec (rt : Runtime) (s : Semaphore)
    (hsig : rt.signal = some s)
    (hblocked : ∀ t ∈ rt.blocked_queue, ∃ s',
      tblLookup rt.thread_states t.thread_id = some (ThreadState.blocked s'))
    (hnodup : (rt.blocked_queue.map Thread.thread_id).Nodup) :
    ∃ st, signalPost rt = some
        { rt with
            signal := none
            sems := semIncr rt.sems s
            thread_states := st
            ready_queue := rt.ready_queue ++
              rt.blocked_queue.filter (blockedOn rt.thread_states s)
            blocked_queue :=
              rt.blocked_queue.filter (fun t => !blockedOn rt.thread_states s t) } ∧
      (∀ t ∈ rt.blocked_queue, blockedOn rt.thread_states s t = true →
          tblLookup st t.thread_id = some ThreadState.ready) ∧
      (∀ id, id ∉ rt.blocked_queue.map Thread.thread_id →
          tblLookup st id = tblLookup rt.thread_states id) := by
  obtain ⟨st, hdrain, hready, hrest⟩ :=
    drainBlocked_spec s rt.blocked_queue rt.thread_states rt.ready_queue
      hblocked hnodup
  refine ⟨st, ?_, hready, hrest⟩
  simp only [signalPost, hsig, hdrain]
  rfl

/-- A runtime with two threads blocked on the same semaphore and a pending
post of that semaphore. -/
def rtTwoBlocked : Runtime :=
  { rtNew [ByteCode.POST, ByteCode.DONE] with
      sems := [0]
      signal := some ⟨0⟩
      thread_count := 3
      thread_states :=
        [(1, ThreadState.ready), (2, ThreadState.blocked ⟨0⟩),
         (3, ThreadState.blocked ⟨0⟩)]
      blocked_queue := [⟨2, 0, [], [], 4⟩, ⟨3, 0, [], [], 4⟩] }

/-- Counterexample to C3: a single execution of `signal_post` moves BOTH
threads blocked on the posted semaphore to the ready queue — two wakes
from one post, refuting "wakes at most one of them — exactly one per
post". -/
theorem c3_counterexample :
    (signalPost rtTwoBlocked).map
        (fun r => (r.ready_queue.map Thread.thread_id,
                   r.blocked_queue.map Thread.thread_id)) =
      some ([2, 3], []) := by
  decide

/-- C3 (amended).  Each execution of `signal_post` wakes EVERY thread
blocked on the posted semaphore — each exactly once — and the woken
threads are appended to the ready queue in the order in which they sat in
the blocked queue (FIFO); threads blocked on other semaphores stay. -/
theorem c3_post_wakes_all_fifo (rt : Runtime) (s : Semaphore)
    (hsig : rt.signal = some s)
    (hblocked : ∀ t ∈ rt.blocked_queue, ∃ s',
      tblLookup rt.thread_states t.thread_id = some (ThreadState.blocked s'))
    (hnodup : (rt.blocked_queue.map Thread.thread_id).Nodup) :
    ∃ rt', signalPost rt = some rt' ∧
      rt'.ready_queue = rt.ready_queue ++
        rt.blocked_queue.filter (blockedOn rt.thread_states s) ∧
      rt'.blocked_queue =
        rt.blocked_queue.filter (fun t => !blockedOn rt.thread_states s t) := by
  obtain ⟨st, hpost, -, -⟩ := signalPost_spec rt s hsig hblocked hnodup
  exact ⟨_, hpost, rfl, rfl⟩

/-- Witness for C3 (amended) at `rtTwoBlocked`. -/
theorem c3_witness :
    ∃ rt', signalPost rtTwoBlocked = some rt' ∧
      rt'.ready_queue = rtTwoBlocked.ready_queue ++
        rtTwoBlocked.blocked_queue.filter
          (blockedOn rtTwoBlocked.thread_states ⟨0⟩) ∧
      rt'.blocked_queue = rtTwoBlocked.blocked_queue.filter
        (fun t => !blockedOn rtTwoBlocked.thread_states ⟨0⟩ t) :=
  c3_post_wakes_all_fifo rtTwoBlocked ⟨0⟩ rfl
    (by
      intro t ht
      have hq : rtTwoBlocked.blocked_queue = [⟨2, 0, [], [], 4⟩, ⟨3, 0, [], [], 4⟩] := rfl
      rw [hq] at ht
      rcases List.mem_cons.mp ht with rfl | ht1
      · exact ⟨⟨0⟩, rfl⟩
      rcases List.mem_cons.mp ht1 with rfl | ht2
      · exact ⟨⟨0⟩, rfl⟩
      · exact (List.not_mem_nil t ht2).elim)
    (by decide)

/-- C4.  When the pending-post slot holds `s`, `signal_post` empties the
slot, increments `s`'s counter by exactly one, moves every blocked-queue
thread whose state is `Blocked` on a handle identical to `s` to the back
of the ready queue (in blocked-queue order) with state `Ready`, and keeps
all threads blocked on other semaphores in the blocked queue in their
original relative order, their states untouched. -/
theorem c4_signal_post_effect (rt : Runtime) (s : Semaphore)
    (hsig : rt.signal = some s)
    (hblocked : ∀ t ∈ rt.blocked_queue, ∃ s',
      tblLookup rt.thread_states t.thread_id = some (ThreadState.blocked s'))
    (hnodup : (rt.blocked_queue.map Thread.thread_id).Nodup)
    (hsem : s.id < rt.sems.length) :
    ∃ st, signalPost rt = some
        { rt with
            signal := none
            sems := semIncr rt.sems s
            thread_states := st
            ready_queue := rt.ready_queue ++
              rt.blocked_queue.filter (blockedOn rt.thread_states s)
            blocked_queue :=
              rt.blocked_queue.filter (fun t => !blockedOn rt.thread_states s t) } ∧
      semRead (semIncr rt.sems s) s = semRead rt.sems s + 1 ∧
      (∀ t ∈ rt.blocked_queue, blockedOn rt.thread_states s t = true →
          tblLookup st t.thread_id = some ThreadState.ready) ∧
      (∀ id, id ∉ rt.blocked_queue.map Thread.thread_id →
          tblLookup st id = tblLookup rt.thread_states id) := by
  obtain ⟨st, hpost, hready, hrest⟩ := signalPost_spec rt s hsig hblocked hnodup
  exact ⟨st, hpost, semRead_semIncr rt.sems s hsem, hready, hrest⟩

/-- A runtime with threads blocked on two different semaphores (ids 0 and
1) and a pending post of semaphore 0; threads 2 and 4 block on it, thread
3 on the other. -/
def rtMixedBlocked : Runtime :=
  { rtNew [ByteCode.POST, ByteCode.DONE] with
      sems := [5, 5]
      signal := some ⟨0⟩
      thread_count := 4
      thread_states :=
        [(1, ThreadState.ready), (2, ThreadState.blocked ⟨0⟩),
         (3, ThreadState.blocked ⟨1⟩), (4, ThreadState.blocked ⟨0⟩)]
      blocked_queue := [⟨2, 0, [], [], 4⟩, ⟨3, 0, [], [], 9⟩, ⟨4, 0, [], [], 4⟩] }

/-- Witness for C4 at `rtMixedBlocked`: the two semaphores have equal
counters, yet only the threads blocked on the posted handle move. -/
theorem c4_witness :
    ∃ st, signalPost rtMixedBlocked = some
        { rtMixedBlocked with
            signal := none
            sems := semIncr rtMixedBlocked.sems ⟨0⟩
            thread_states := st
            ready_queue := rtMixedBlocked.ready_queue ++
              rtMixedBlocked.blocked_queue.filter
                (blockedOn rtMixedBlocked.thread_states ⟨0⟩)
            blocked_queue := rtMixedBlocked.blocked_queue.filter
              (fun t => !blockedOn rtMixedBlocked.thread_states ⟨0⟩ t) } ∧
      semRead (semIncr rtMixedBlocked.sems ⟨0⟩) ⟨0⟩ =
        semRead rtMixedBlocked.sems ⟨0⟩ + 1 ∧
      (∀ t ∈ rtMixedBlocked.blocked_queue,
          blockedOn rtMixedBlocked.thread_states ⟨0⟩ t = true →
          tblLookup st t.thread_id = some ThreadState.ready) ∧
      (∀ id, id ∉ rtMixedBlocked.blocked_queue.map Thread.thread_id →
          tblLookup st id = tblLookup rtMixedBlocked.thread_states id) :=
  c4_signal_post_effect rtMixedBlocked ⟨0⟩ rfl
    (by
      intro t ht
      have hq : rtMixedBlocked.blocked_queue =
          [⟨2, 0, [], [], 4⟩, ⟨3, 0, [], [], 9⟩, ⟨4, 0, [], [], 4⟩] := rfl
      rw [hq] at ht
      rcases List.mem_cons.mp ht with rfl | ht1
      · exact ⟨⟨0⟩, rfl⟩
      rcases List.mem_cons.mp ht1 with rfl | ht2
      · exact ⟨⟨1⟩, rfl⟩
      rcases List.mem_cons.mp ht2 with rfl | ht3
      · exact ⟨⟨0⟩, rfl⟩
      · exact (List.not_mem_nil t ht3).elim)
    (by decide) (by decide)

/-- C6.  `SPAWN(addr)` increments the thread counter, enqueues at the back
of the ready queue a child with the fresh id, `PC = addr`, the parent's
env reference and stacks with `Int(0)` pushed, and pushes the child's id
onto the parent's operand stack — but it leaves the thread-state table
UNTOUCHED: no `Ready` entry is ever recorded for the child (contradicting
the claim, `spawn.rs`'s own doc comment, and `runtime.rs`'s use of
`get_current_thread_state`).  Concretely, after `SPAWN` on a fresh
`Runtime::new`, the child id 2 has no entry in the state table. -/
theorem c6_spawn_records_no_state (rt : Runtime) (addr : Nat) :
    (spawn rt addr).thread_states = rt.thread_states ∧
    (spawn rt addr).thread_count = rt.thread_count + 1 ∧
    (spawn rt addr).ready_queue = rt.ready_queue ++
      [{ rt.current_thread with
          thread_id := rt.thread_count + 1
          pc := addr
          operand_stack := Value.intV 0 :: rt.current_thread.operand_stack }] ∧
    (spawn rt addr).current_thread = { rt.current_thread with
      operand_stack :=
        Value.intV (rt.thread_count + 1) :: rt.current_thread.operand_stack } ∧
    tblLookup (spawn (rtNew [ByteCode.SPAWN 1, ByteCode.DONE]) 1).thread_states 2 =
      none :=
  ⟨rfl, rfl, rfl, rfl, by decide⟩

/-- A runtime whose current thread (id 1, `PC` past its `JOIN`
instruction) is joining thread 2, with thread 2 a zombie holding
`Int(123)` atop its operand stack. -/
def rtJoin : Runtime :=
  { rtNew [ByteCode.JOIN 2, ByteCode.DONE] with
      thread_count := 2
      thread_states := [(1, ThreadState.joining 2), (2, ThreadState.zombie)]
      current_thread := ⟨1, 0, [], [], 1⟩
      zombie_threads := [(2, ⟨2, 0, [Value.intV 123], [], 9⟩)] }

/-- C7.  With the current thread in `Joining(tid)` (and `PC > 0`, which
always holds since `fetch_instr` incremented it): when `tid` has no
state-table entry the VM panics; when `tid` is a `Zombie` the current
thread is set back to `Ready`, the zombie's operand-stack top is popped
and pushed onto the current thread's stack, and both the zombie's thread
record and its state-table entry are removed; otherwise the current
thread's PC is decremented by one and the thread yields. -/
theorem c7_join_cases (rt : Runtime) (tid : ThreadID)
    (hjoin : getCurrentThreadState rt = some (ThreadState.joining tid))
    (hpc : 0 < rt.current_thread.pc) :
    (tblLookup rt.thread_states tid = none → joinCurrentThread rt = none) ∧
    (∀ zombie v vs, tblLookup rt.thread_states tid = some ThreadState.zombie →
      tblLookup rt.zombie_threads tid = some zombie →
      zombie.operand_stack = v :: vs →
      joinCurrentThread rt = some (Except.ok { rt with
        thread_states :=
          tblRemove (tblInsert rt.thread_states rt.current_thread.thread_id
            ThreadState.ready) tid
        zombie_threads := tblRemove rt.zombie_threads tid
        current_thread := { rt.current_thread with
          operand_stack := v :: rt.current_thread.operand_stack } })) ∧
    (∀ st, tblLookup rt.thread_states tid = some st → st ≠ ThreadState.zombie →
      joinCurrentThread rt =
        (yieldCurrentThread { rt with current_thread :=
          { rt.current_thread with pc := rt.current_thread.pc - 1 } }).map
          Except.ok) := by
  refine ⟨?_, ?_, ?_⟩
  · intro hnone
    simp [joinCurrentThread, hjoin, hnone]
  · intro zombie v vs hzomb hrec hstack
    simp [joinCurrentThread, hjoin, hzomb, hrec, hstack]
  · intro st hst hne
    have hpc' : rt.current_thread.pc ≠ 0 := Nat.pos_iff_ne_zero.mp hpc
    cases st with
    | zombie => exact absurd rfl hne
    | ready => simp [joinCurrentThread, hjoin, hst, hpc']
    | yielded => simp [joinCurrentThread, hjoin, hst, hpc']
    | blocked s => simp [joinCurrentThread, hjoin, hst, hpc']
    | joining t => simp [joinCurrentThread, hjoin, hst, hpc']
    | done => simp [joinCurrentThread, hjoin, hst, hpc']

/-- Witness for C7 at `rtJoin`: the zombie case, yielding `Int(123)` to
the joining thread and deallocating the zombie. -/
theorem c7_witness :
    joinCurrentThread rtJoin = some (Except.ok { rtJoin with
      thread_states :=
        tblRemove (tblInsert rtJoin.thread_states rtJoin.current_thread.thread_id
          ThreadState.ready) 2
      zombie_threads := tblRemove rtJoin.zombie_threads 2
      current_thread := { rtJoin.current_thread with
        operand_stack := Value.intV 123 :: rtJoin.current_thread.operand_stack } }) :=
  (c7_join_cases rtJoin 2 rfl (by decide)).2.1
    ⟨2, 0, [Value.intV 123], [], 9⟩ (Value.intV 123) [] rfl rfl rfl

/-- The global-like environment (allocation 0): it binds `"f"` to a live
closure whose captured environment is allocation 1. -/
def gcEnv0 : GCEnv := ⟨none, [("f", Value.closureV FnType.user "Closure" [] 3 1)]⟩

/-- The captured environment (allocation 1), child of allocation 0. -/
def gcEnv1 : GCEnv := ⟨some 0, []⟩

/-- A paused VM state in which the collector may run: one thread whose
current environment is allocation 0; the closure bound as `"f"` inside
that environment captures allocation 1. -/
def rtGC : GCRuntime := ⟨[(0, gcEnv0), (1, gcEnv1)], ⟨1, 0, [], [], 0⟩, [], []⟩

/-- C2 (failing evaluation).  `mark_and_weep` on `rtGC` keeps allocation 0
(the thread's environment) but SWEEPS allocation 1, even though a live
closure — reachable from the current thread as the binding `"f"` of its
(retained) environment — still captures allocation 1: `mark_env` never
traverses the closure values stored inside an environment's bindings, so
an environment reachable only through such a binding is dropped from the
registry, violating the claimed invariant. -/
theorem c2_gc_sweeps_reachable_closure_env :
    (markAndWeep rtGC).map
        (fun r => (tblLookup r.env_registry 0, tblLookup r.env_registry 1)) =
      some (some gcEnv0, none) ∧
    frameLookup gcEnv0.bindings "f" =
      some (Value.closureV FnType.user "Closure" [] 3 1) ∧
    rtGC.current_thread.env = 0 := by
  decide

/-- The C8 failing input: the statement `if false { 2 }` (no else branch)
as the sole declaration of a program block. -/
def progC8 : CBlockSeq :=
  CBlockSeq.mk
    [CDecl.exprStmt (CExpr.ifElseExpr (CIfElse.mk (CExpr.boolE false)
      (CBlockSeq.mk [] (some (CExpr.integer 2)) []) none))]
    none []

/-- The bytecode the spec's claim describes for `progC8`: an if-else whose
implicit else-block produces `Unit` (this is also what the repository's
own `test_compile_if_only` expects). -/
def c8ClaimedCode : List ByteCode :=
  [ByteCode.LDC (Value.boolV false), ByteCode.JOF 4, ByteCode.LDC (Value.intV 2),
   ByteCode.GOTO 5, ByteCode.LDC Value.unit, ByteCode.POP, ByteCode.DONE]

/-- C8 (failing evaluation).  Compiling `if false { 2 };` the compiler
emits NO implicit `Unit` else-arm: the `JOF` and the `GOTO` both land on
the statement's trailing `POP`, so on the false path nothing was pushed
and the `POP` underflows — whereas the claimed lowering (an if-else with
an implicit `Unit` else-block, `c8ClaimedCode`) runs to completion. -/
theorem c8_if_only_no_implicit_unit :
    compileProgram progC8 =
      [ByteCode.LDC (Value.boolV false), ByteCode.JOF 4,
       ByteCode.LDC (Value.intV 2), ByteCode.GOTO 4, ByteCode.POP,
       ByteCode.DONE] ∧
    compileProgram progC8 ≠ c8ClaimedCode ∧
    runBC 100 (compileProgram progC8) 0 [] = ExecResult.underflow ∧
    runBC 100 c8ClaimedCode 0 [] = ExecResult.ok [] := by
  refine ⟨rfl, by decide, rfl, rfl⟩

end RustScript
